import Mathlib

/-!
Verification of the schedule-management application (emploi-temps-app).

Shallow embedding of the Python services in Lean 4.  Python strings are
modelled as Lean `String` / `List Char` (the relevant inputs are ASCII);
machine integers as `Int`/`Nat`; fallible code (code that may raise an
uncaught exception) returns `Option`, with `none` standing for an exception.
-/

namespace EmploiTemps

/-- ASCII digit test, `48 ≤ c ≤ 57` (the digits accepted by `int()` and by
the `\d` regex class on the program's ASCII inputs). -/
def isDigitChar (c : Char) : Bool := 48 ≤ c.toNat && c.toNat ≤ 57

/-- Numeric value of a digit character. -/
def dval (c : Char) : Nat := c.toNat - 48

/-- Python whitespace (`str.strip()` default / regex `\s`), ASCII part:
space, tab, newline, carriage return, vertical tab, form feed. -/
def isPySpace (c : Char) : Bool :=
  c.toNat = 32 || c.toNat = 9 || c.toNat = 10 || c.toNat = 13 || c.toNat = 11 || c.toNat = 12

/-- Python `str.strip()`: remove leading and trailing whitespace. -/
def pyStrip (cs : List Char) : List Char :=
  ((cs.dropWhile isPySpace).reverse.dropWhile isPySpace).reverse

/-- Value of a nonempty all-digit character list, as `int()` computes it. -/
def parseDigits (cs : List Char) : Option Nat :=
  if cs.isEmpty || !cs.all isDigitChar then none
  else some (cs.foldl (fun a c => a * 10 + dval c) 0)

/-- Python `int(s)` on a string given as a character list: strip whitespace,
optional sign, then a nonempty digit run; `none` models `ValueError`.
(Python additionally accepts `_` digit-group separators and non-ASCII
digits; none of the program's time strings use those.) -/
def pythonInt (cs : List Char) : Option Int :=
  match pyStrip cs with
  | [] => none
  | c :: rest =>
    if c = '-' then (parseDigits rest).map (fun n => -(n : Int))
    else if c = '+' then (parseDigits rest).map (fun n => (n : Int))
    else (parseDigits (c :: rest)).map (fun n => (n : Int))

/-- Python `s.split(sep)` for a one-character separator: split at every
occurrence, keeping empty pieces. -/
def splitChar (sep : Char) : List Char → List (List Char)
  | [] => [[]]
  | c :: rest =>
    if c = sep then [] :: splitChar sep rest
    else
      match splitChar sep rest with
      | [] => [[c]]
      | g :: gs => (c :: g) :: gs

/-- `TimeSlotService.time_to_minutes` (src/services/timeslot_service.py).
Returns `some 0` when the string has no colon; on a colon-containing string
it does `hours, minutes = map(int, time_str.split(':'))` and returns
`hours * 60 + minutes`; `none` models the uncaught `ValueError` raised when
a piece is not an integer or the split does not have exactly two pieces. -/
def time_to_minutes (time_str : String) : Option Int :=
  if !(time_str.data.any (fun c => decide (c = ':'))) then some 0
  else
    match splitChar ':' time_str.data with
    | [h, m] => do
      let hours ← pythonInt h
      let minutes ← pythonInt m
      pure (hours * 60 + minutes)
    | _ => none

/-- `RoomConflictService.times_overlap` (also reimplemented verbatim as
`ScheduleManager.times_overlap`): convert the four times to minutes and
return `not (end1 <= start2 or end2 <= start1)`; `none` models a
`ValueError` escaping from `time_to_minutes`. -/
def times_overlap (s1 e1 s2 e2 : String) : Option Bool :=
  (time_to_minutes s1).bind (fun a =>
    (time_to_minutes e1).bind (fun b =>
      (time_to_minutes s2).bind (fun c =>
        (time_to_minutes e2).map (fun d =>
          !(decide (b ≤ c) || decide (d ≤ a))))))

/-- A string of the exact shape `HH:MM`: two digits, a colon, two digits,
with hours below 24 and minutes below 60. -/
def isValidHHMM (s : String) : Bool :=
  match s.data with
  | [h1, h2, c, m1, m2] =>
    isDigitChar h1 && isDigitChar h2 && decide (c = ':') && isDigitChar m1 && isDigitChar m2
      && dval h1 * 10 + dval h2 < 24 && dval m1 * 10 + dval m2 < 60
  | _ => false

/-- Minute encoding of a `HH:MM` string (0 on other shapes). -/
def timeVal (s : String) : Int :=
  match s.data with
  | [h1, h2, _, m1, m2] => ((dval h1 * 10 + dval h2) * 60 + (dval m1 * 10 + dval m2) : Nat)
  | _ => 0

lemma isDigitChar_bounds {c : Char} (h : isDigitChar c = true) :
    48 ≤ c.toNat ∧ c.toNat ≤ 57 := by
  simp only [isDigitChar, Bool.and_eq_true, decide_eq_true_eq] at h
  exact h

lemma digit_ne {c : Char} (h : isDigitChar c = true) {d : Char}
    (hd : d.toNat < 48 ∨ 57 < d.toNat) : c ≠ d := by
  intro he
  subst he
  rcases isDigitChar_bounds h with ⟨h1, h2⟩
  omega

lemma digit_not_space {c : Char} (h : isDigitChar c = true) : isPySpace c = false := by
  rcases isDigitChar_bounds h with ⟨h1, h2⟩
  simp only [isPySpace, Bool.or_eq_false_iff, decide_eq_false_iff_not]
  omega

lemma digit_ne_colon {c : Char} (h : isDigitChar c = true) : c ≠ ':' :=
  digit_ne h (Or.inr (by decide))

lemma digit_ne_minus {c : Char} (h : isDigitChar c = true) : c ≠ '-' :=
  digit_ne h (Or.inl (by decide))

lemma digit_ne_plus {c : Char} (h : isDigitChar c = true) : c ≠ '+' :=
  digit_ne h (Or.inl (by decide))

lemma pythonInt_two_digits {a b : Char} (ha : isDigitChar a = true)
    (hb : isDigitChar b = true) :
    pythonInt [a, b] = some ((dval a * 10 + dval b : Nat) : Int) := by
  have hsa := digit_not_space ha
  have hsb := digit_not_space hb
  simp only [pythonInt, pyStrip, List.dropWhile, hsa, hsb, List.reverse_cons,
    List.reverse_nil, List.nil_append, List.cons_append, Bool.false_eq_true, if_false]
  rw [if_neg (digit_ne_minus ha), if_neg (digit_ne_plus ha)]
  simp [parseDigits, ha, hb, dval]

/-- On a well-formed `HH:MM` string, `time_to_minutes` returns its minute
encoding. -/
lemma time_to_minutes_valid {s : String} (h : isValidHHMM s = true) :
    time_to_minutes s = some (timeVal s) := by
  obtain ⟨cs⟩ := s
  rcases cs with _ | ⟨h1, _ | ⟨h2, _ | ⟨c0, _ | ⟨m1, _ | ⟨m2, _ | rest⟩⟩⟩⟩⟩ <;>
    simp only [isValidHHMM] at h <;>
    try exact absurd h (by decide)
  simp only [Bool.and_eq_true, decide_eq_true_eq] at h
  obtain ⟨⟨⟨⟨⟨⟨hd1, hd2⟩, hc⟩, hd3⟩, hd4⟩, hh⟩, hm⟩ := h
  subst hc
  have e1 := digit_ne_colon hd1
  have e2 := digit_ne_colon hd2
  have e3 := digit_ne_colon hd3
  have e4 := digit_ne_colon hd4
  have hsplit : splitChar ':' [h1, h2, ':', m1, m2] = [[h1, h2], [m1, m2]] := by
    simp [splitChar, e1, e2, e3, e4]
  simp only [time_to_minutes, List.any_cons, List.any_nil, decide_eq_true_eq]
  rw [if_neg (by simp [e1, e2, e3, e4]), hsplit]
  simp only [pythonInt_two_digits hd1 hd2, pythonInt_two_digits hd3 hd4]
  simp [timeVal]

/-- C7 counterexample: on the input `":"` (which contains a colon but is not
parsable), `time_to_minutes` raises `ValueError` (modelled by `none`) instead
of returning `0` as the claim states for every unparsable input. -/
theorem c7_time_to_minutes_not_total :
    time_to_minutes ":" = none ∧ time_to_minutes ":" ≠ some 0 := by
  constructor
  · rfl
  · decide

/-- C7 (amended): `time_to_minutes` returns `hours*60 + minutes` for every
valid `HH:MM` input (in particular 480 for "08:00" and 750 for "12:30"), and
returns `0` for every string without a colon (including the empty string);
but it is not total: a colon-containing unparsable input such as `":"`
raises `ValueError` instead of returning `0`. -/
theorem c7_time_to_minutes_spec :
    (∀ s : String, isValidHHMM s = true → time_to_minutes s = some (timeVal s)) ∧
    time_to_minutes "08:00" = some 480 ∧
    time_to_minutes "12:30" = some 750 ∧
    (∀ s : String, ¬ (s.data.any (fun c => decide (c = ':'))) = true → time_to_minutes s = some 0) ∧
    time_to_minutes "" = some 0 ∧
    time_to_minutes ":" = none := by
  refine ⟨fun s h => time_to_minutes_valid h, by decide, by decide, ?_, by decide, by decide⟩
  intro s hs
  cases hb : s.data.any (fun c => decide (c = ':')) with
  | false => simp [time_to_minutes, hb]
  | true => exact absurd hb hs

/-- C7 witness: the amended theorem applied at concrete inputs. -/
theorem c7_time_to_minutes_spec_witness :
    time_to_minutes "08:00" = some (timeVal "08:00") ∧ time_to_minutes "abc" = some 0 :=
  ⟨c7_time_to_minutes_spec.1 "08:00" (by decide),
   c7_time_to_minutes_spec.2.2.2.1 "abc" (by decide)⟩

/-- C5: for valid `HH:MM` times with `s1 < e1` and `s2 < e2`, `times_overlap`
equals `not (e1 <= s2 or e2 <= s1)` on the minute encodings; it is symmetric
for all inputs; and it returns `false` for adjacent intervals (`e1 == s2`). -/
theorem c5_times_overlap_spec (s1 e1 s2 e2 : String) :
    (isValidHHMM s1 = true → isValidHHMM e1 = true → isValidHHMM s2 = true →
     isValidHHMM e2 = true → timeVal s1 < timeVal e1 → timeVal s2 < timeVal e2 →
      times_overlap s1 e1 s2 e2 =
        some (decide (¬(timeVal e1 ≤ timeVal s2 ∨ timeVal e2 ≤ timeVal s1)))) ∧
    times_overlap s1 e1 s2 e2 = times_overlap s2 e2 s1 e1 ∧
    (isValidHHMM s1 = true → isValidHHMM e1 = true → isValidHHMM e2 = true →
      e1 = s2 → times_overlap s1 e1 s2 e2 = some false) := by
  refine ⟨?_, ?_, ?_⟩
  · intro h1 h2 h3 h4 _ _
    simp [times_overlap, time_to_minutes_valid h1, time_to_minutes_valid h2,
      time_to_minutes_valid h3, time_to_minutes_valid h4, ← decide_not, not_le]
  · cases ha : time_to_minutes s1 <;> cases hb : time_to_minutes e1 <;>
      cases hc : time_to_minutes s2 <;> cases hd : time_to_minutes e2 <;>
      simp [times_overlap, ha, hb, hc, hd, Bool.or_comm, Bool.and_comm]
  · intro h1 h2 h4 he
    subst he
    simp [times_overlap, time_to_minutes_valid h1, time_to_minutes_valid h2,
      time_to_minutes_valid h4]

/-- C5 witness: the theorem applied at concrete overlapping and adjacent
time pairs. -/
theorem c5_times_overlap_spec_witness :
    times_overlap "08:00" "10:00" "09:00" "11:00" = some true ∧
    times_overlap "08:00" "09:00" "09:00" "11:00" = some false := by
  constructor
  · have h := (c5_times_overlap_spec "08:00" "10:00" "09:00" "11:00").1 (by decide) (by decide)
      (by decide) (by decide) (by decide) (by decide)
    exact h.trans (by decide)
  · exact (c5_times_overlap_spec "08:00" "09:00" "09:00" "11:00").2.2 (by decide) (by decide)
      (by decide) rfl

/-- Python `str.lower()` (ASCII range; the normalized names are ASCII). -/
def pyLower (cs : List Char) : List Char := cs.map Char.toLower

/-- Python no-argument `str.split()`: maximal non-whitespace runs, empties
discarded.  `acc` holds the current word reversed. -/
def pySplitWsAux : List Char → List Char → List (List Char)
  | [], acc => if acc = [] then [] else [acc.reverse]
  | c :: rest, acc =>
    if isPySpace c then (if acc = [] then [] else [acc.reverse]) ++ pySplitWsAux rest []
    else pySplitWsAux rest (c :: acc)

def pySplitWs (cs : List Char) : List (List Char) := pySplitWsAux cs []

/-- Python `str.title()` (ASCII): a letter is uppercased when the previous
character is not a letter, lowercased otherwise. -/
def pyTitle : Bool → List Char → List Char
  | _, [] => []
  | prevAlpha, c :: rest =>
    if c.isAlpha then (if prevAlpha then c.toLower else c.toUpper) :: pyTitle true rest
    else c :: pyTitle false rest

/-- The honorific prefixes removed by `normalize_professor_name`
(src/excel_parser.py), in source order. -/
def prefixes_to_remove : List (List Char) :=
  [String.data "Mme ", String.data "M ", String.data "Mlle ", String.data "Mr ",
   String.data "Mrs ", String.data "Ms "]

/-- `normalize_professor_name` (src/excel_parser.py): empty input gives "";
otherwise strip, remove the first matching honorific prefix
(case-insensitively, then strip), truncate at the first `/` (then strip),
and return `' '.join(name.split()).title()`. -/
def normalize_professor_name (s : String) : String :=
  if s.data = [] then ""
  else
    let name := pyStrip s.data
    let name1 :=
      match prefixes_to_remove.find? (fun p => (pyLower p).isPrefixOf (pyLower name)) with
      | some p => pyStrip (name.drop p.length)
      | none => name
    let name2 :=
      if name1.any (fun c => decide (c = '/')) then pyStrip ((splitChar '/' name1).headD [])
      else name1
    String.mk (pyTitle false (List.intercalate [' '] (pySplitWs name2)))

/-- C6 counterexample: normalization is not idempotent.  On `"M M Jean"` the
first pass strips one honorific (giving `"M Jean"`), and a second pass strips
another (giving `"Jean"`), so `normalize (normalize x) ≠ normalize x`. -/
theorem c6_normalize_not_idempotent :
    normalize_professor_name (normalize_professor_name "M M Jean") ≠
      normalize_professor_name "M M Jean" := by decide

/-- C6 (amended): `normalize_professor_name "Mme DUPONT" = "Dupont"` and
`normalize_professor_name "M Jean / M Paul" = "Jean"`, but normalization is
not idempotent in general: `"M M Jean"` normalizes to `"M Jean"`, which
normalizes further to `"Jean"`. -/
theorem c6_normalize_examples :
    normalize_professor_name "Mme DUPONT" = "Dupont" ∧
    normalize_professor_name "M Jean / M Paul" = "Jean" ∧
    normalize_professor_name "M M Jean" = "M Jean" ∧
    normalize_professor_name "M Jean" = "Jean" := by decide

/-- Proleptic Gregorian calendar date, as `datetime.date`. -/
structure PyDate where
  year : Nat
  month : Nat
  day : Nat
deriving DecidableEq, Repr

def isLeapYear (y : Nat) : Bool := (y % 4 = 0 && y % 100 ≠ 0) || y % 400 = 0

def daysInMonth (y m : Nat) : Nat :=
  if m = 2 then (if isLeapYear y then 29 else 28)
  else if m = 4 ∨ m = 6 ∨ m = 9 ∨ m = 11 then 30
  else 31

def nextDay (d : PyDate) : PyDate :=
  if d.day < daysInMonth d.year d.month then ⟨d.year, d.month, d.day + 1⟩
  else if d.month < 12 then ⟨d.year, d.month + 1, 1⟩
  else ⟨d.year + 1, 1, 1⟩

/-- `date + timedelta(days=n)`. -/
def addDays (d : PyDate) : Nat → PyDate
  | 0 => d
  | n + 1 => nextDay (addDays d n)

/-- Zero-padded two-digit decimal rendering (`%02d`). -/
def pad2 (n : Nat) : String := if n < 10 then "0" ++ Nat.repr n else Nat.repr n

/-- `strftime("%d/%m/%Y")` for the years at hand (already four digits). -/
def strftimeDMY (d : PyDate) : String :=
  pad2 d.day ++ "/" ++ pad2 d.month ++ "/" ++ Nat.repr d.year

/-- One entry of the week list built by `WeekService` (a dict with keys
`name`, `date`, `full_name`). -/
structure WeekEntry where
  name : String
  date : String
  full_name : String
deriving DecidableEq, Repr

/-- One iteration of either loop of `generate_academic_calendar`
(src/services/week_service.py): `startWeek`/`startDate` anchor the segment,
`pad` tells whether the week number is rendered `%02d` (second loop only),
and the accumulator threads the `is_type_A` flag across iterations. -/
def calendarStep (startWeek : Nat) (startDate : PyDate) (pad : Bool)
    (acc : List WeekEntry × Bool) (week_num : Nat) : List WeekEntry × Bool :=
  let week_type := if acc.2 then "A" else "B"
  let monday := addDays startDate ((week_num - startWeek) * 7)
  let date_str := strftimeDMY monday
  let nm := "Semaine " ++ (if pad then pad2 week_num else Nat.repr week_num) ++ " " ++ week_type
  (acc.1 ++ [⟨nm, date_str, nm ++ " (" ++ date_str ++ ")"⟩], !acc.2)

/-- `WeekService.generate_academic_calendar`: weeks 36–52 anchored at
Monday 2025-09-01, then weeks 1–35 anchored at Monday 2026-01-05, with the
`is_type_A` flag carried from the first loop into the second. -/
def generate_academic_calendar : List WeekEntry :=
  let r1 := (List.range' 36 17).foldl (calendarStep 36 ⟨2025, 9, 1⟩ false) ([], true)
  ((List.range' 1 35).foldl (calendarStep 1 ⟨2026, 1, 5⟩ true) r1).1

/-- The A/B letter of a calendar entry: the last character of its name. -/
def weekLetter (w : WeekEntry) : Char := w.name.data.getLastD ' '

/-- `DD/MM/YYYY` shape: ten characters, digits with slashes at positions 2
and 5 (so the year has exactly four digits). -/
def isDDMMYYYY (s : String) : Bool :=
  match s.data with
  | [d1, d2, s1, m1, m2, s2, y1, y2, y3, y4] =>
    isDigitChar d1 && isDigitChar d2 && decide (s1 = '/') && isDigitChar m1 && isDigitChar m2
      && decide (s2 = '/') && isDigitChar y1 && isDigitChar y2 && isDigitChar y3 && isDigitChar y4
  | _ => false

/-- `WeekService.find_week_info`: linear scan for the first entry whose
`name` equals the label; `None` when no entry matches. -/
def find_week_info (week_name : String) (weeks_to_display : List WeekEntry) : Option WeekEntry :=
  weeks_to_display.find? (fun w => decide (w.name = week_name))

/-- C3: the generated calendar has exactly 52 entries; entry `i < 17` is week
`36 + i` with the Monday `i` weeks after 2025-09-01, and entry `17 + i`
(`i < 35`) is week `1 + i` (zero-padded) with the Monday `i` weeks after
2026-01-05; the first entry is named "Semaine 36 A"; the A/B letter strictly
alternates between all consecutive entries, continuing across the segment
boundary (entry 17, week 1, is a "B" week); and every `date` field is
`DD/MM/YYYY` with a four-digit year. -/
theorem c3_generate_academic_calendar :
    generate_academic_calendar.length = 52 ∧
    (generate_academic_calendar.head?.map WeekEntry.name) = some "Semaine 36 A" ∧
    ((List.range 17).all (fun i =>
      (generate_academic_calendar.get? i).any (fun w =>
        w.name = ("Semaine " ++ Nat.repr (36 + i) ++ " " ++ (if i % 2 = 0 then "A" else "B")) &&
        w.date = strftimeDMY (addDays ⟨2025, 9, 1⟩ (7 * i))))) = true ∧
    ((List.range 35).all (fun i =>
      (generate_academic_calendar.get? (17 + i)).any (fun w =>
        w.name = ("Semaine " ++ pad2 (1 + i) ++ " " ++ (if i % 2 = 0 then "B" else "A")) &&
        w.date = strftimeDMY (addDays ⟨2026, 1, 5⟩ (7 * i))))) = true ∧
    ((generate_academic_calendar.zip generate_academic_calendar.tail).all
      (fun p => decide (weekLetter p.1 ≠ weekLetter p.2))) = true ∧
    (generate_academic_calendar.get? 17).map WeekEntry.name = some "Semaine 01 B" ∧
    (generate_academic_calendar.all (fun w => isDDMMYYYY w.date)) = true := by
  refine ⟨by decide, by decide, by decide, by decide, by decide, by decide, by decide⟩

/-- C8 counterexample: on the generated (nonempty) calendar and the unknown
label "Semaine 99 Z", `find_week_info` returns `None` — not the first entry
of the list as the claim states. -/
theorem c8_find_week_info_no_fallback :
    find_week_info "Semaine 99 Z" generate_academic_calendar = none ∧
    generate_academic_calendar ≠ [] := by
  exact ⟨by decide, by decide⟩

/-- `find?` returns an element such that everything before it fails the
predicate. -/
lemma find?_split {α : Type} (p : α → Bool) (l : List α) (w : α)
    (h : l.find? p = some w) :
    ∃ l1 l2, l = l1 ++ w :: l2 ∧ ∀ v ∈ l1, p v = false := by
  induction l with
  | nil => simp at h
  | cons x xs ih =>
    by_cases hx : p x = true
    · rw [List.find?_cons_of_pos _ hx] at h
      obtain rfl : x = w := by simpa using h
      exact ⟨[], xs, rfl, by simp⟩
    · have hx' : p x = false := by simpa using hx
      rw [List.find?_cons_of_neg _ (by simp [hx'])] at h
      obtain ⟨l1, l2, rfl, hl1⟩ := ih h
      refine ⟨x :: l1, l2, rfl, ?_⟩
      intro v hv
      rcases List.mem_cons.mp hv with rfl | hv'
      · exact hx'
      · exact hl1 v hv'

/-- C8 (amended): `find_week_info` returns the first entry whose name equals
the label, and returns `None` (not the first entry) when no entry matches. -/
theorem c8_find_week_info_spec (week_name : String) (weeks : List WeekEntry) :
    (∀ w, find_week_info week_name weeks = some w →
      w.name = week_name ∧
      ∃ l1 l2, weeks = l1 ++ w :: l2 ∧ ∀ v ∈ l1, v.name ≠ week_name) ∧
    ((∀ w ∈ weeks, w.name ≠ week_name) → find_week_info week_name weeks = none) := by
  constructor
  · intro w hw
    have hw0 : weeks.find? (fun v => decide (v.name = week_name)) = some w := hw
    have h1 := List.find?_some hw0
    refine ⟨by simpa using h1, ?_⟩
    obtain ⟨l1, l2, hsplit, hl1⟩ := find?_split _ weeks w hw0
    exact ⟨l1, l2, hsplit, fun v hv => by simpa using hl1 v hv⟩
  · intro hall
    simp only [find_week_info, List.find?_eq_none, decide_eq_true_eq]
    exact hall

/-- C8 witness: the amended theorem applied at a concrete label and list. -/
theorem c8_find_week_info_spec_witness :
    find_week_info "Semaine 99 Z" [⟨"Semaine 36 A", "01/09/2025", "x"⟩] = none :=
  (c8_find_week_info_spec "Semaine 99 Z" [⟨"Semaine 36 A", "01/09/2025", "x"⟩]).2
    (by decide)

/-- `TimeSlot` value object (src/domain/value_objects/time_slot.py); the
`datetime.time` endpoints compare by their minute encoding, so they are
modelled as minutes since midnight. -/
structure TimeSlot where
  start_time : Nat
  end_time : Nat
deriving DecidableEq, Repr

/-- `TimeSlot.overlaps_with`: `not (self.end <= other.start or other.end <= self.start)`. -/
def TimeSlot.overlaps_with (self other : TimeSlot) : Bool :=
  !(decide (self.end_time ≤ other.start_time) || decide (other.end_time ≤ self.start_time))

/-- `WeekIdentifier` value object (week number plus "A"/"B" letter). -/
structure WeekIdentifier where
  number : Nat
  type_letter : String
deriving DecidableEq, Repr

/-- Domain `Course` entity (src/domain/entities/course.py), restricted to
the fields `has_conflict_with` reads. -/
structure DomainCourse where
  professor_name : String
  course_type : String
  time_slot : TimeSlot
  week_identifier : WeekIdentifier
  day_of_week : String
  assigned_room_id : Option String
deriving DecidableEq, Repr

/-- Python truthiness of an `Optional[str]`: `None` and `""` are falsy. -/
def truthyRoom : Option String → Bool
  | none => false
  | some s => decide (s ≠ "")

/-- `Course.has_conflict_with` (src/domain/entities/course.py lines 59-74):
different week or day → no conflict; otherwise conflict iff temporal overlap
and (same room — both truthy and equal — or either room id falsy). -/
def DomainCourse.has_conflict_with (self other : DomainCourse) : Bool :=
  if self.week_identifier ≠ other.week_identifier then false
  else if self.day_of_week ≠ other.day_of_week then false
  else
    let same_room := truthyRoom self.assigned_room_id && truthyRoom other.assigned_room_id &&
      decide (self.assigned_room_id = other.assigned_room_id)
    let temporal_overlap := self.time_slot.overlaps_with other.time_slot
    temporal_overlap && (same_room || !truthyRoom self.assigned_room_id
      || !truthyRoom other.assigned_room_id)

lemma truthyRoom_eq_true {o : Option String} :
    truthyRoom o = true ↔ ∃ s, o = some s ∧ s ≠ "" := by
  cases o <;> simp [truthyRoom]

/-- C2 counterexample: a course whose `assigned_room_id` is the empty string
is "assigned" in the claim's sense (it is not `None`), yet the code treats it
as unassigned: two same-week/same-day overlapping courses with rooms `""`
and `"R1"` — assigned to two different rooms — are flagged as conflicting,
contradicting the claim. -/
theorem c2_has_conflict_with_counterexample :
    (DomainCourse.has_conflict_with
      ⟨"P1", "CM", ⟨480, 600⟩, ⟨36, "A"⟩, "Lundi", some ""⟩
      ⟨"P2", "CM", ⟨540, 660⟩, ⟨36, "A"⟩, "Lundi", some "R1"⟩) = true ∧
    (some "" : Option String) ≠ none ∧ (some "R1" : Option String) ≠ none ∧
    (some "" : Option String) ≠ some "R1" := by
  refine ⟨by decide, by decide, by decide, by decide⟩

/-- C2 (amended): `has_conflict_with` returns true exactly when the weeks and
days coincide, the slots overlap, and either both rooms are assigned the same
non-empty room or at least one room id is falsy (`None` or `""`); in
particular two overlapping same-week/same-day courses with no room are
flagged, and two such courses in different non-empty rooms are not. -/
theorem c2_has_conflict_with_spec (a b : DomainCourse) :
    (a.has_conflict_with b = true ↔
      (a.week_identifier = b.week_identifier ∧ a.day_of_week = b.day_of_week ∧
       a.time_slot.overlaps_with b.time_slot = true ∧
       ((∃ r, r ≠ "" ∧ a.assigned_room_id = some r ∧ b.assigned_room_id = some r) ∨
        truthyRoom a.assigned_room_id = false ∨ truthyRoom b.assigned_room_id = false))) ∧
    (a.week_identifier = b.week_identifier → a.day_of_week = b.day_of_week →
      a.time_slot.overlaps_with b.time_slot = true → a.assigned_room_id = none →
      b.assigned_room_id = none → a.has_conflict_with b = true) ∧
    (∀ r1 r2, a.assigned_room_id = some r1 → b.assigned_room_id = some r2 →
      r1 ≠ "" → r2 ≠ "" → r1 ≠ r2 → a.has_conflict_with b = false) := by
  have hiff : a.has_conflict_with b = true ↔
      (a.week_identifier = b.week_identifier ∧ a.day_of_week = b.day_of_week ∧
       a.time_slot.overlaps_with b.time_slot = true ∧
       ((∃ r, r ≠ "" ∧ a.assigned_room_id = some r ∧ b.assigned_room_id = some r) ∨
        truthyRoom a.assigned_room_id = false ∨ truthyRoom b.assigned_room_id = false)) := by
    by_cases hw : a.week_identifier = b.week_identifier
    · by_cases hd : a.day_of_week = b.day_of_week
      · simp only [DomainCourse.has_conflict_with, if_neg (not_not_intro hw),
          if_neg (not_not_intro hd), hw, hd, true_and]
        cases hta : truthyRoom a.assigned_room_id <;>
          cases htb : truthyRoom b.assigned_room_id <;>
            simp_all [truthyRoom_eq_true]
        obtain ⟨ra, hra, hra'⟩ := hta
        obtain ⟨rb, hrb, hrb'⟩ := htb
        intro _
        rw [hra, hrb]
        simp only [Option.some_inj]
        constructor
        · rintro h
          exact ⟨ra, hra', rfl, h.symm⟩
        · rintro ⟨r, _, h1, h2⟩
          rw [h1, h2]
      · simp [DomainCourse.has_conflict_with, hd]
    · simp [DomainCourse.has_conflict_with, hw]
  refine ⟨hiff, ?_, ?_⟩
  · intro hw hd hov ha hb
    exact hiff.mpr ⟨hw, hd, hov, Or.inr (Or.inl (by simp [ha, truthyRoom]))⟩
  · intro r1 r2 ha hb h1 h2 hne
    cases hc : a.has_conflict_with b
    · rfl
    · obtain ⟨_, _, _, hroom⟩ := hiff.mp hc
      rcases hroom with ⟨r, _, hr1, hr2⟩ | hfa | hfb
      · rw [ha, Option.some_inj] at hr1
        rw [hb, Option.some_inj] at hr2
        exact (hne (hr1.trans hr2.symm)).elim
      · rw [ha] at hfa
        simp [truthyRoom, h1] at hfa
      · rw [hb] at hfb
        simp [truthyRoom, h2] at hfb

/-- C2 witness: the amended theorem applied to two concrete overlapping
courses with no assigned rooms. -/
theorem c2_has_conflict_with_spec_witness :
    (DomainCourse.has_conflict_with
      ⟨"P1", "CM", ⟨480, 600⟩, ⟨36, "A"⟩, "Lundi", none⟩
      ⟨"P2", "TP", ⟨540, 660⟩, ⟨36, "A"⟩, "Lundi", none⟩) = true :=
  (c2_has_conflict_with_spec _ _).2.1 rfl rfl (by decide) rfl rfl

/-- A course dict as seen by `CourseGridService.prepare_courses_with_tps`,
restricted to the fields it reads: `course_id` and the attachment key
`(day, professor, raw_time_slot)`. -/
structure CourseRow where
  course_id : String
  day : String
  professor : String
  raw_time_slot : String
deriving DecidableEq, Repr

/-- A course as returned by `prepare_courses_with_tps`: the course dict plus
its `related_tps` list (always `[]` on the attached TPs themselves). -/
structure GridEntry where
  row : CourseRow
  related_tps : List CourseRow
deriving DecidableEq, Repr

/-- `course['course_id'].startswith('custom_')`. -/
def isCustom (c : CourseRow) : Bool := (String.data "custom_").isPrefixOf c.course_id.data

/-- Equality of the lookup keys `(day, professor, raw_time_slot)`. -/
def sameKey (a b : CourseRow) : Bool :=
  decide (a.day = b.day) && decide (a.professor = b.professor) &&
    decide (a.raw_time_slot = b.raw_time_slot)

/-- The attachment loop: the Python code appends each custom TP to
`original_courses_lookup[key][0]`, the first original course with that key.
Functionally: an original receives the TPs matching its key exactly when no
earlier original (`seen`) shares its key; later duplicates get `[]`. -/
def attachTps (customs : List CourseRow) : List CourseRow → List CourseRow → List GridEntry
  | _, [] => []
  | seen, o :: rest =>
    (⟨o, if seen.any (fun s => sameKey s o) then []
         else customs.filter (fun t => sameKey o t)⟩ : GridEntry)
      :: attachTps customs (o :: seen) rest

/-- `CourseGridService.prepare_courses_with_tps`
(src/services/course_grid_service.py): split into original courses and
custom TPs, attach each TP to the first original sharing its key, and return
the originals followed by the unmatched (standalone) TPs. -/
def prepare_courses_with_tps (all_courses_for_week : List CourseRow) : List GridEntry :=
  let original_courses := all_courses_for_week.filter (fun c => !isCustom c)
  let custom_tps := all_courses_for_week.filter isCustom
  let originals_with_tps := attachTps custom_tps [] original_courses
  let standalone_tps :=
    (custom_tps.filter (fun t => original_courses.all (fun o => !sameKey o t))).map
      (fun t => (⟨t, []⟩ : GridEntry))
  originals_with_tps ++ standalone_tps

lemma sameKey_trans {a b c : CourseRow} (h1 : sameKey a b = true) (h2 : sameKey b c = true) :
    sameKey a c = true := by
  simp only [sameKey, Bool.and_eq_true, decide_eq_true_eq] at *
  exact ⟨⟨h1.1.1.trans h2.1.1, h1.1.2.trans h2.1.2⟩, h1.2.trans h2.2⟩

lemma sameKey_symm {a b : CourseRow} (h : sameKey a b = true) : sameKey b a = true := by
  simp only [sameKey, Bool.and_eq_true, decide_eq_true_eq] at *
  exact ⟨⟨h.1.1.symm, h.1.2.symm⟩, h.2.symm⟩

lemma find?_cons_pos' {α : Type} (p : α → Bool) (a : α) (l : List α) (h : p a = true) :
    (a :: l).find? p = some a := List.find?_cons_of_pos l h

lemma find?_cons_neg' {α : Type} (p : α → Bool) (a : α) (l : List α) (h : p a = false) :
    (a :: l).find? p = l.find? p := List.find?_cons_of_neg l (by simp [h])

lemma find?_append_left {α : Type} (p : α → Bool) {l1 : List α} (l2 : List α) {x : α}
    (h : l1.find? p = some x) : (l1 ++ l2).find? p = some x := by
  induction l1 with
  | nil => simp at h
  | cons y ys ih =>
    by_cases hy : p y = true
    · rw [List.find?_cons_of_pos _ hy] at h
      simpa [List.find?_cons_of_pos _ hy] using h
    · rw [List.find?_cons_of_neg _ hy] at h
      simpa [List.find?_cons_of_neg _ hy] using ih h

lemma attachTps_row_mem {customs seen origs : List CourseRow} {e : GridEntry}
    (h : e ∈ attachTps customs seen origs) : e.row ∈ origs := by
  induction origs generalizing seen with
  | nil => simp [attachTps] at h
  | cons o rest ih =>
    simp only [attachTps, List.mem_cons] at h
    rcases h with rfl | h
    · simp
    · exact List.mem_cons_of_mem _ (ih h)

/-- The first original whose key matches `tp` receives exactly the customs
with that key, and is the first row of the output matching `tp`'s key. -/
lemma attachTps_find (customs : List CourseRow) (tp : CourseRow) :
    ∀ (origs seen : List CourseRow), (∀ s ∈ seen, sameKey s tp = false) →
      ∀ o, origs.find? (fun c => sameKey c tp) = some o →
        (attachTps customs seen origs).find? (fun e => sameKey e.row tp) =
          some ⟨o, customs.filter (fun t => sameKey o t)⟩ := by
  intro origs
  induction origs with
  | nil => intro seen _ o h; simp at h
  | cons x xs ih =>
    intro seen hseen o h
    by_cases hx : sameKey x tp = true
    · rw [find?_cons_pos' (fun c => sameKey c tp) x xs hx] at h
      obtain rfl : x = o := by simpa using h
      have hany : (seen.any (fun s => sameKey s x)) = false := by
        rw [List.any_eq_false]
        intro s hs hso
        exact absurd (sameKey_trans hso hx) (by simp [hseen s hs])
      simp only [attachTps, hany, Bool.false_eq_true, if_false]
      exact find?_cons_pos' (fun e : GridEntry => sameKey e.row tp) _ _ hx
    · have hx' : sameKey x tp = false := by simpa using hx
      rw [find?_cons_neg' (fun c => sameKey c tp) x xs hx'] at h
      have hrec := ih (x :: seen) (by
        intro s hs
        rcases List.mem_cons.mp hs with rfl | hs'
        · exact hx'
        · exact hseen s hs') o h
      simp only [attachTps]
      rw [find?_cons_neg' (fun e : GridEntry => sameKey e.row tp)
        ⟨x, if seen.any (fun s => sameKey s x) then []
            else customs.filter (fun t => sameKey x t)⟩
        (attachTps customs (x :: seen) xs) (by simp [hx']), hrec]

/-- C4: in `prepare_courses_with_tps`, a custom course whose key
`(day, professor, raw_time_slot)` matches some canonical course is attached
to the `related_tps` of the first such canonical course and appears in no
returned entry's `row` (it is not a standalone grid entry); a custom course
matching no canonical course is returned as the standalone entry
`⟨tp, []⟩`. -/
theorem c4_prepare_courses_with_tps (all : List CourseRow) (tp : CourseRow)
    (htp : tp ∈ all) (hc : isCustom tp = true) :
    (∀ o, (all.filter (fun c => !isCustom c)).find? (fun c => sameKey c tp) = some o →
      ∃ e, (prepare_courses_with_tps all).find? (fun e' => sameKey e'.row tp) = some e ∧
        e.row = o ∧ tp ∈ e.related_tps ∧
        ∀ e' ∈ prepare_courses_with_tps all, e'.row ≠ tp) ∧
    ((all.filter (fun c => !isCustom c)).find? (fun c => sameKey c tp) = none →
      GridEntry.mk tp [] ∈ prepare_courses_with_tps all) := by
  constructor
  · intro o ho
    have hkey : sameKey o tp = true := by simpa using List.find?_some ho
    have hmem : tp ∈ all.filter isCustom := List.mem_filter.mpr ⟨htp, hc⟩
    have hfind := attachTps_find (all.filter isCustom) tp
      (all.filter (fun c => !isCustom c)) [] (by simp) o ho
    refine ⟨⟨o, (all.filter isCustom).filter (fun t => sameKey o t)⟩,
      ?_, rfl, ?_, ?_⟩
    · exact find?_append_left _ _ hfind
    · exact List.mem_filter.mpr ⟨hmem, hkey⟩
    · intro e' he' heq
      rcases List.mem_append.mp he' with hl | hr
      · have : e'.row ∈ all.filter (fun c => !isCustom c) := attachTps_row_mem hl
        have : isCustom e'.row = false := by
          have h2 := (List.mem_filter.mp this).2
          simpa using h2
        rw [heq] at this
        rw [this] at hc
        exact Bool.false_ne_true hc
      · obtain ⟨t, ht, rfl⟩ := List.mem_map.mp hr
        have heq' : t = tp := heq
        subst heq'
        have ht2 := (List.mem_filter.mp ht).2
        have hofind := List.mem_of_find?_eq_some ho
        have hall := (List.all_eq_true.mp ht2) o hofind
        simp only [Bool.not_eq_true'] at hall
        rw [hall] at hkey
        exact Bool.false_ne_true hkey
  · intro ho
    have hnone := List.find?_eq_none.mp ho
    have hmem : tp ∈ all.filter isCustom := List.mem_filter.mpr ⟨htp, hc⟩
    have hstand : tp ∈ (all.filter isCustom).filter
        (fun t => (all.filter (fun c => !isCustom c)).all (fun o => !sameKey o t)) := by
      refine List.mem_filter.mpr ⟨hmem, ?_⟩
      rw [List.all_eq_true]
      intro o homem
      simpa using hnone o homem
    exact List.mem_append.mpr (Or.inr (List.mem_map.mpr ⟨tp, hstand, rfl⟩))

/-- Sample canonical course for the C4 witness. -/
def c4Canonical : CourseRow := ⟨"abc123", "Lundi", "Dupont", "8h-10h"⟩

/-- Sample custom TP for the C4 witness, sharing the canonical's key. -/
def c4Custom : CourseRow := ⟨"custom_20250901120000", "Lundi", "Dupont", "8h-10h"⟩

/-- C4 witness: the theorem applied to one canonical course and one matching
custom TP. -/
theorem c4_prepare_courses_with_tps_witness :
    ∃ e, (prepare_courses_with_tps [c4Canonical, c4Custom]).find?
        (fun e' => sameKey e'.row c4Custom) = some e ∧
      e.row = c4Canonical ∧ c4Custom ∈ e.related_tps ∧
      ∀ e' ∈ prepare_courses_with_tps [c4Canonical, c4Custom], e'.row ≠ c4Custom :=
  (c4_prepare_courses_with_tps [c4Canonical, c4Custom] c4Custom (by decide) (by decide)).1
    c4Canonical (by decide)

/-- A stored course row (canonical or custom), before the room assignment is
attached: the fields `ScheduleDataService.get_all_courses` copies into each
`ProfessorCourse`. -/
structure StoredCourse where
  course_id : String
  professor : String
  start_time : String
  end_time : String
  day : String
  week_name : String
  raw_time_slot : String
deriving DecidableEq, Repr

/-- The `ProfessorCourse` dataclass (src/core/schedule_manager.py), with the
`assigned_room` Optional[str] attached from the assignment store. -/
structure ProfessorCourse where
  course_id : String
  professor : String
  start_time : String
  end_time : String
  day : String
  week_name : String
  raw_time_slot : String
  assigned_room : Option String
deriving DecidableEq, Repr

/-- `ScheduleManager` state relevant to room assignment: the course rows and
the persisted `room_assignments` dict (JSON file, kept in sync with the
database by `sync_room_assignments_to_db`), modelled as an association
list with unique keys. -/
structure ScheduleState where
  courses : List StoredCourse
  room_assignments : List (String × String)
deriving DecidableEq, Repr

/-- Python `dict.get(k)`: value of the first (unique) matching key. -/
def pyDictGet (m : List (String × String)) (k : String) : Option String :=
  (m.find? (fun p => decide (p.1 = k))).map (fun p => p.2)

/-- Python `dict[k] = v`: overwrite the existing entry in place, else append. -/
def pyDictSet (m : List (String × String)) (k v : String) : List (String × String) :=
  if m.any (fun p => decide (p.1 = k)) then
    m.map (fun p => if p.1 = k then (k, v) else p)
  else m ++ [(k, v)]

/-- `ScheduleManager.get_all_courses`: every stored row as a
`ProfessorCourse` with `assigned_room = room_assignments.get(course_id)`
(src/services/schedule_data_service.py). -/
def get_all_courses (st : ScheduleState) : List ProfessorCourse :=
  st.courses.map (fun c =>
    ⟨c.course_id, c.professor, c.start_time, c.end_time, c.day, c.week_name, c.raw_time_slot,
     pyDictGet st.room_assignments c.course_id⟩)

/-- The filter in `RoomConflictService.check_room_conflict`'s loop:
a different course, in the requested room, same week and same day. -/
def qualifies (cur : ProfessorCourse) (course_id room_id : String)
    (c : ProfessorCourse) : Bool :=
  decide (c.course_id ≠ course_id) && decide (c.assigned_room = some room_id) &&
    decide (c.week_name = cur.week_name) && decide (c.day = cur.day)

/-- The `for course in all_courses` loop of `check_room_conflict`: the first
qualifying course with a temporal overlap yields `True`; a `ValueError`
escaping `times_overlap` (modelled `none`) propagates. -/
def conflictScan (cur : ProfessorCourse) (course_id room_id : String) :
    List ProfessorCourse → Option Bool
  | [] => some false
  | c :: rest =>
    if qualifies cur course_id room_id c then
      match times_overlap cur.start_time cur.end_time c.start_time c.end_time with
      | none => none
      | some true => some true
      | some false => conflictScan cur course_id room_id rest
    else conflictScan cur course_id room_id rest

/-- `RoomConflictService.check_room_conflict`
(src/services/room_conflict_service.py): an unknown `course_id` is a
conflict (`True`); otherwise scan all courses for a qualifying overlap. -/
def check_room_conflict (course_id room_id : String)
    (all_courses : List ProfessorCourse) : Option Bool :=
  match all_courses.find? (fun c => decide (c.course_id = course_id)) with
  | none => some true
  | some current_course => conflictScan current_course course_id room_id all_courses

/-- `ScheduleManager.assign_room` (src/core/schedule_manager.py lines
138-153): reject on conflict, otherwise record `course_id -> room_id`,
reload the cache and `return bool(result)` — where `result` is what
`ScheduleDataService.assign_room_to_course` returns, namely the `room_id`
string itself (src/services/schedule_data_service.py line 32) — so the
success branch returns the truthiness of `room_id` (false for `""`, with
the mapping recorded anyway).  The surrounding `try/except` turns an
escaping exception (`none` from the check) into `False` with the state
unchanged. -/
def assign_room (st : ScheduleState) (course_id room_id : String) :
    Bool × ScheduleState :=
  match check_room_conflict course_id room_id (get_all_courses st) with
  | some false =>
    (decide (room_id ≠ ""), ⟨st.courses, pyDictSet st.room_assignments course_id room_id⟩)
  | _ => (false, st)

/-- The spec-side conflict condition: some other course in the same week and
day, with an overlapping time interval, already has the room assigned. -/
def hasRoomConflict (cur : ProfessorCourse) (course_id room_id : String)
    (all : List ProfessorCourse) : Prop :=
  ∃ c ∈ all, c.course_id ≠ course_id ∧ c.assigned_room = some room_id ∧
    c.week_name = cur.week_name ∧ c.day = cur.day ∧
    times_overlap cur.start_time cur.end_time c.start_time c.end_time = some true

instance (cur : ProfessorCourse) (course_id room_id : String)
    (all : List ProfessorCourse) :
    Decidable (hasRoomConflict cur course_id room_id all) := by
  unfold hasRoomConflict
  infer_instance

lemma times_overlap_valid {s1 e1 s2 e2 : String} (h1 : isValidHHMM s1 = true)
    (h2 : isValidHHMM e1 = true) (h3 : isValidHHMM s2 = true)
    (h4 : isValidHHMM e2 = true) :
    times_overlap s1 e1 s2 e2 =
      some (!(decide (timeVal e1 ≤ timeVal s2) || decide (timeVal e2 ≤ timeVal s1))) := by
  simp [times_overlap, time_to_minutes_valid h1, time_to_minutes_valid h2,
    time_to_minutes_valid h3, time_to_minutes_valid h4]

/-- The scan is the decision procedure for `hasRoomConflict`, provided no
`times_overlap` call raises. -/
lemma conflictScan_eq (cur : ProfessorCourse) (cid rid : String)
    (l : List ProfessorCourse)
    (ht : ∀ c ∈ l, times_overlap cur.start_time cur.end_time c.start_time c.end_time ≠ none) :
    conflictScan cur cid rid l = some (decide (hasRoomConflict cur cid rid l)) := by
  induction l with
  | nil => simp [conflictScan, hasRoomConflict]
  | cons c rest ih =>
    have htc := ht c (by simp)
    have htr : ∀ x ∈ rest,
        times_overlap cur.start_time cur.end_time x.start_time x.end_time ≠ none :=
      fun x hx => ht x (List.mem_cons_of_mem _ hx)
    by_cases hq : qualifies cur cid rid c = true
    · simp only [conflictScan, if_pos hq]
      cases hov : times_overlap cur.start_time cur.end_time c.start_time c.end_time with
      | none => exact absurd hov htc
      | some b =>
        cases b
        · rw [ih htr]
          show some (decide (hasRoomConflict cur cid rid rest)) =
            some (decide (hasRoomConflict cur cid rid (c :: rest)))
          congr 1
          rw [decide_eq_decide]
          constructor
          · rintro ⟨x, hx, hQ⟩
            exact ⟨x, List.mem_cons_of_mem _ hx, hQ⟩
          · rintro ⟨x, hx, hx1, hx2, hx3, hx4, hx5⟩
            rcases List.mem_cons.mp hx with rfl | hx'
            · rw [hov] at hx5
              cases hx5
            · exact ⟨x, hx', hx1, hx2, hx3, hx4, hx5⟩
        · have hqs : c.course_id ≠ cid ∧ c.assigned_room = some rid ∧
              c.week_name = cur.week_name ∧ c.day = cur.day := by
            simpa [qualifies, and_assoc] using hq
          have : hasRoomConflict cur cid rid (c :: rest) :=
            ⟨c, by simp, hqs.1, hqs.2.1, hqs.2.2.1, hqs.2.2.2, hov⟩
          simp [this]
    · have hq' : qualifies cur cid rid c = false := by simpa using hq
      simp only [conflictScan, hq', Bool.false_eq_true, if_false]
      rw [ih htr]
      congr 1
      rw [decide_eq_decide]
      constructor
      · rintro ⟨x, hx, hQ⟩
        exact ⟨x, List.mem_cons_of_mem _ hx, hQ⟩
      · rintro ⟨x, hx, hx1, hx2, hx3, hx4, hx5⟩
        rcases List.mem_cons.mp hx with rfl | hx'
        · have hxq : qualifies cur cid rid x = true := by
            simp [qualifies, hx1, hx2, hx3, hx4]
          rw [hq'] at hxq
          exact absurd hxq (by decide)
        · exact ⟨x, hx', hx1, hx2, hx3, hx4, hx5⟩

lemma mem_get_all_courses_valid {st : ScheduleState}
    (hvalid : ∀ c ∈ st.courses, isValidHHMM c.start_time = true ∧ isValidHHMM c.end_time = true)
    {x : ProfessorCourse} (hx : x ∈ get_all_courses st) :
    isValidHHMM x.start_time = true ∧ isValidHHMM x.end_time = true := by
  simp only [get_all_courses, List.mem_map] at hx
  obtain ⟨p, hp, rfl⟩ := hx
  exact hvalid p hp

/-- Sample courses for the C1 scenario: two overlapping and one adjacent. -/
def sampleCourseA : StoredCourse :=
  ⟨"c1", "P1", "08:00", "10:00", "Lundi", "Semaine 36 A", "8h-10h"⟩

def sampleCourseB : StoredCourse :=
  ⟨"c2", "P2", "09:00", "11:00", "Lundi", "Semaine 36 A", "9h-11h"⟩

def sampleCourseC : StoredCourse :=
  ⟨"c3", "P3", "10:00", "12:00", "Lundi", "Semaine 36 A", "10h-12h"⟩

/-- C1 counterexample: for `room_id = ""` and an existing course with no
conflict (an empty room id never equals a recorded `assigned_room`, so no
conflict can mention it), the program *records* the mapping
`course_id -> ""` and yet returns `False`, because the final
`return bool(result)` coerces the returned `room_id` string: the claim's
"otherwise it records the mapping and returns true" fails. -/
theorem c1_assign_room_counterexample :
    assign_room ⟨[sampleCourseA], []⟩ "c1" "" =
      (false, ⟨[sampleCourseA], [("c1", "")]⟩) ∧
    ¬ hasRoomConflict
      ⟨"c1", "P1", "08:00", "10:00", "Lundi", "Semaine 36 A", "8h-10h", none⟩
      "c1" "" (get_all_courses ⟨[sampleCourseA], []⟩) ∧
    (get_all_courses ⟨[sampleCourseA], []⟩).find?
        (fun c => decide (c.course_id = "c1")) =
      some ⟨"c1", "P1", "08:00", "10:00", "Lundi", "Semaine 36 A", "8h-10h", none⟩ := by
  exact ⟨by decide, by decide, by decide⟩

/-- C1 (amended): when `course_id` occurs in the course list (and the time
strings are well-formed `HH:MM`), `assign_room` returns `False` and leaves
the assignment mapping unchanged exactly when some other same-week/same-day
course with overlapping times already holds the room; otherwise it records
`course_id -> room_id` and returns `bool(room_id)` — `True` whenever
`room_id` is non-empty, `False` for `room_id = ""` even though the mapping
is recorded.  In particular, with two overlapping courses the first
assignment of a room succeeds and the second is rejected unchanged, while
with two adjacent (non-overlapping) courses both assignments succeed. -/
theorem c1_assign_room (st : ScheduleState) (course_id room_id : String)
    (cur : ProfessorCourse)
    (hfind : (get_all_courses st).find? (fun c => decide (c.course_id = course_id)) = some cur)
    (hvalid : ∀ c ∈ st.courses,
      isValidHHMM c.start_time = true ∧ isValidHHMM c.end_time = true) :
    (hasRoomConflict cur course_id room_id (get_all_courses st) →
      assign_room st course_id room_id = (false, st)) ∧
    (¬ hasRoomConflict cur course_id room_id (get_all_courses st) →
      assign_room st course_id room_id =
        (decide (room_id ≠ ""),
         ⟨st.courses, pyDictSet st.room_assignments course_id room_id⟩)) ∧
    ((assign_room ⟨[sampleCourseA, sampleCourseB], []⟩ "c1" "R1").1 = true ∧
     assign_room (assign_room ⟨[sampleCourseA, sampleCourseB], []⟩ "c1" "R1").2 "c2" "R1" =
       (false, (assign_room ⟨[sampleCourseA, sampleCourseB], []⟩ "c1" "R1").2) ∧
     (assign_room ⟨[sampleCourseA, sampleCourseC], []⟩ "c1" "R1").1 = true ∧
     (assign_room (assign_room ⟨[sampleCourseA, sampleCourseC], []⟩ "c1" "R1").2 "c3" "R1").1
       = true) := by
  have hcur := mem_get_all_courses_valid hvalid (List.mem_of_find?_eq_some hfind)
  have hscan := conflictScan_eq cur course_id room_id (get_all_courses st) (by
    intro c hc
    have hc2 := mem_get_all_courses_valid hvalid hc
    rw [times_overlap_valid hcur.1 hcur.2 hc2.1 hc2.2]
    exact Option.some_ne_none _)
  refine ⟨?_, ?_, by decide, by decide, by decide, by decide⟩
  · intro hconf
    simp only [assign_room, check_room_conflict, hfind, hscan, decide_eq_true hconf]
  · intro hconf
    have : decide (hasRoomConflict cur course_id room_id (get_all_courses st)) = false :=
      decide_eq_false hconf
    simp only [assign_room, check_room_conflict, hfind, hscan, this]

/-- C1 witness: the theorem applied to a concrete state where the course
exists and no conflict is present; the assignment is recorded. -/
theorem c1_assign_room_witness :
    assign_room ⟨[sampleCourseA, sampleCourseB], []⟩ "c1" "R1" =
      (true, ⟨[sampleCourseA, sampleCourseB], [("c1", "R1")]⟩) :=
  ((c1_assign_room ⟨[sampleCourseA, sampleCourseB], []⟩ "c1" "R1"
      ⟨"c1", "P1", "08:00", "10:00", "Lundi", "Semaine 36 A", "8h-10h", none⟩
      (by decide) (by decide)).2.1 (by decide)).trans (by decide)

/-- C9: when no course in the list carries the requested `course_id`,
`check_room_conflict` reports a conflict (`True`), and `assign_room` on a
state without that course returns `False` and records nothing. -/
theorem c9_unknown_course_conflict (cid rid : String) (all : List ProfessorCourse)
    (st : ScheduleState) (h1 : ∀ c ∈ all, c.course_id ≠ cid)
    (h2 : ∀ c ∈ st.courses, c.course_id ≠ cid) :
    check_room_conflict cid rid all = some true ∧
    assign_room st cid rid = (false, st) := by
  have hf : all.find? (fun c => decide (c.course_id = cid)) = none :=
    List.find?_eq_none.mpr (fun x hx => by simp [h1 x hx])
  have hf2 : (get_all_courses st).find? (fun c => decide (c.course_id = cid)) = none := by
    apply List.find?_eq_none.mpr
    intro x hx
    simp only [get_all_courses, List.mem_map] at hx
    obtain ⟨p, hp, rfl⟩ := hx
    simp [h2 p hp]
  constructor
  · simp [check_room_conflict, hf]
  · simp [assign_room, check_room_conflict, hf2]

/-- C9 witness: the theorem applied to a concrete list and state not
containing the course id. -/
theorem c9_unknown_course_conflict_witness :
    check_room_conflict "ghost" "R1" [] = some true ∧
    assign_room ⟨[sampleCourseA], []⟩ "ghost" "R1" = (false, ⟨[sampleCourseA], []⟩) :=
  c9_unknown_course_conflict "ghost" "R1" [] ⟨[sampleCourseA], []⟩
    (by simp) (by decide)

/-- `(\d{1,2})h` anchored at the current position: one or two digits then
`h` (a third digit makes both greedy alternatives fail). -/
def matchHourH (cs : List Char) : Option (Nat × List Char) :=
  match cs with
  | [] => none
  | c1 :: rest =>
    if isDigitChar c1 then
      match rest with
      | [] => none
      | c2 :: rest2 =>
        if isDigitChar c2 then
          match rest2 with
          | [] => none
          | c3 :: rest3 => if c3 = 'h' then some (dval c1 * 10 + dval c2, rest3) else none
        else if c2 = 'h' then some (dval c1, rest2) else none
    else none

/-- `\s*-\s*`. -/
def matchSep (cs : List Char) : Option (List Char) :=
  match cs.dropWhile isPySpace with
  | c :: r => if c = '-' then some (r.dropWhile isPySpace) else none
  | [] => none

/-- The optional start-minutes group `(\d{0,2})?` followed by `\s*-\s*`,
with the regex's greedy backtracking (two digits, then one, then none; a
digit can never start the separator, so trying the separator after each
digit choice is exact). -/
def startMinutesSep (cs : List Char) : Option (Nat × List Char) :=
  (match cs with
   | c1 :: c2 :: rest =>
     if isDigitChar c1 && isDigitChar c2 then
       (matchSep rest).map (fun r => (dval c1 * 10 + dval c2, r))
     else none
   | _ => none) <|>
  (match cs with
   | c1 :: rest =>
     if isDigitChar c1 then (matchSep rest).map (fun r => (dval c1, r)) else none
   | _ => none) <|>
  (matchSep cs).map (fun r => (0, r))

/-- The trailing end-minutes group `(\d{0,2})?` with nothing after it:
greedily take up to two digits; an empty or absent group counts as 0. -/
def endMinutes (cs : List Char) : Nat :=
  match cs with
  | c1 :: c2 :: _ =>
    if isDigitChar c1 then (if isDigitChar c2 then dval c1 * 10 + dval c2 else dval c1) else 0
  | [c1] => if isDigitChar c1 then dval c1 else 0
  | [] => 0

/-- `re.match(r'(\d{1,2})h(?:(\d{0,2}))?\s*-\s*(\d{1,2})h(?:(\d{0,2}))?', s)`:
start hour/minutes, separator, end hour/minutes (trailing text ignored). -/
def pattern_range (cs : List Char) : Option (Nat × Nat × Nat × Nat) :=
  match matchHourH cs with
  | none => none
  | some (sh, rest) =>
    match startMinutesSep rest with
    | none => none
    | some (sm, rest2) =>
      match matchHourH rest2 with
      | none => none
      | some (eh, rest3) => some (sh, sm, eh, endMinutes rest3)

/-- The tail of `parse_time_range` after the regex: format the two times
`%02d:%02d`, re-parse them with `strptime("%H:%M")` — which raises
`ValueError` (modelled `none`) unless hours ≤ 23 and minutes ≤ 59 — and
compute the duration in hours.  The Python float duration is modelled
exactly as a rational; the claims only touch the value 0, which the float
represents exactly. -/
def finishTimeRange (sh sm eh em : Nat) : Option (Option (String × String × ℚ)) :=
  if sh ≤ 23 && sm ≤ 59 && eh ≤ 23 && em ≤ 59 then
    some (some (pad2 sh ++ ":" ++ pad2 sm, pad2 eh ++ ":" ++ pad2 em,
      (((eh * 60 + em : Nat) : ℚ) - ((sh * 60 + sm : Nat) : ℚ)) / 60))
  else none

/-- `ExcelScheduleParser.parse_time_range` (src/excel_parser.py lines 47-87):
empty input gives `None`; otherwise strip, replace `H` by `h`, try the range
pattern, else the single-hour pattern (`8h` meaning one hour) provided the
string has no `-`, else `None`.  The outer `Option` models an uncaught
`ValueError` from `strptime`; the inner one is the function's `None`. -/
def parse_time_range (time_str : String) : Option (Option (String × String × ℚ)) :=
  if time_str = "" then some none
  else
    let cs := (pyStrip time_str.data).map (fun c => if c = 'H' then 'h' else c)
    match pattern_range cs with
    | some (sh, sm, eh, em) => finishTimeRange sh sm eh em
    | none =>
      match matchHourH cs with
      | some (h, _) =>
        if cs.any (fun c => decide (c = '-')) then some none
        else finishTimeRange h 0 (h + 1) 0
      | none => some none

/-- The fields of the `course_data` dict passed to `add_custom_course`
that the function reads or stores unchanged. -/
structure CustomCourseInput where
  professor : String
  day : String
  week_name : String
  raw_time_slot : String
deriving DecidableEq, Repr

/-- A stored custom course (TP) after `add_custom_course` fills in
`course_id`, `start_time`, `end_time` and `duration_hours`. -/
structure CustomCourse where
  course_id : String
  professor : String
  day : String
  week_name : String
  raw_time_slot : String
  start_time : String
  end_time : String
  duration_hours : ℚ
deriving DecidableEq, Repr

/-- `ScheduleManager.add_custom_course` (src/core/schedule_manager.py lines
195-211): build `custom_<timestamp>` (the timestamp is a parameter here),
parse the time slot — on `None` fall back to "00:00"/"00:00"/0 — append the
course to the custom-course list, persist it (modelled by the returned
list) and return the id; an escaping `ValueError` (outer `none`) creates
nothing. -/
def add_custom_course (custom_courses : List CustomCourse) (now_stamp : String)
    (data : CustomCourseInput) : Option (String × List CustomCourse) :=
  let course_id := "custom_" ++ now_stamp
  match parse_time_range data.raw_time_slot with
  | none => none
  | some time_info =>
    let std :=
      match time_info with
      | some (s, e, d) => (s, e, d)
      | none => ("00:00", "00:00", (0 : ℚ))
    some (course_id, custom_courses ++
      [⟨course_id, data.professor, data.day, data.week_name, data.raw_time_slot,
        std.1, std.2.1, std.2.2⟩])

/-- C10 counterexample: `add_custom_course` can reject an input on time-slot
grounds.  The slot `"25h-26h"` matches the range pattern, so the fallback is
not taken, and `strptime("25:00", "%H:%M")` raises `ValueError`: no custom
course is created and no id is returned. -/
theorem c10_add_custom_course_counterexample :
    parse_time_range "25h-26h" = none ∧
    add_custom_course [] "20250901120000000000"
      ⟨"P1", "Lundi", "Semaine 36 A", "25h-26h"⟩ = none := by
  exact ⟨by decide, by decide⟩

/-- C10 (amended): for every input whose `raw_time_slot` fails to match the
time patterns (`parse_time_range` returns `None`, e.g. the empty string),
the custom course is still created with start "00:00", end "00:00" and
duration 0, appended to the list, and the fresh `custom_`-prefixed id is
returned; but an input matching the pattern with out-of-range components
(such as "25h-26h") makes `strptime` raise and no course is created. -/
theorem c10_add_custom_course_spec (custom_courses : List CustomCourse)
    (now_stamp : String) (data : CustomCourseInput)
    (h : parse_time_range data.raw_time_slot = some none) :
    add_custom_course custom_courses now_stamp data =
      some ("custom_" ++ now_stamp, custom_courses ++
        [⟨"custom_" ++ now_stamp, data.professor, data.day, data.week_name,
          data.raw_time_slot, "00:00", "00:00", 0⟩]) := by
  simp [add_custom_course, h]

/-- C10 witness: the amended theorem applied to a concrete empty-slot
input. -/
theorem c10_add_custom_course_spec_witness :
    add_custom_course [] "20250901120000000000" ⟨"P1", "Lundi", "Semaine 36 A", ""⟩ =
      some ("custom_20250901120000000000",
        [⟨"custom_20250901120000000000", "P1", "Lundi", "Semaine 36 A", "",
          "00:00", "00:00", 0⟩]) :=
  c10_add_custom_course_spec [] "20250901120000000000"
    ⟨"P1", "Lundi", "Semaine 36 A", ""⟩ (by decide)

end EmploiTemps
